import Mathlib

/-!
Verification of the snapshot scanner core of nodexeus/chainsnaps
(`api/app/services/snapshot_scanner.py`, catalog rows in `api/app/db_models.py`).

The embedding below translates the scanner's pure content directly from the
Python source:

* JSON values decoded by `json.loads` become the mutual inductive `Json`;
  `Json.null` doubles as Python `None` (which is exactly what `json.loads`
  produces for JSON `null`).  Python truthiness (`if total_size: ...`) becomes
  `Json.truthy`.  Dictionaries decoded from JSON have unique keys (duplicate
  keys collapse inside `json.loads` before the scanner sees them), so an
  association structure with first-match lookup is faithful.
* `parse_snapshot_path` follows `SnapshotScannerService.parse_snapshot_path`
  line by line: strip trailing `/`, strip a trailing `-v<digits>` suffix
  (`re.sub(r'-v\d+$', '', ...)` removes at most one such suffix, anchored at
  the end), split on `-`, and branch on whether at least 4 tokens remain.
* The object store observed by one pass is a two-level tree of prefixes
  (`Store` / `ProtocolDir` / `VersionDir`).  Each version directory carries
  the outcome of the two S3 calls the scanner makes for it: the
  `head_object` on `manifest-body.json` (`BodyHeadResult`) and the
  `get_object` + parse of `manifest-header.json` (`HeaderFetchResult`).
  An exception raised by the paginators aborts the remaining traversal and is
  caught by the outer `except` of `_scan_all_snapshots`; this is modelled by
  `Store.traversalError`, an error point after the prefixes that were
  successfully enumerated.
* The catalog is the list of `SnapshotRec` rows; `db.query(...).first()`
  becomes first-match `findSnapshot`, SQLAlchemy's in-place mutation of the
  queried row becomes `updateFirst`, and `db.add` appends.  `datetime.utcnow`
  is an abstract `Nat` instant supplied per pass; `duration_seconds` (a
  float) is not modelled.
-/

set_option autoImplicit false

mutual
/-- JSON values as decoded by Python's `json.loads`; `Json.null` is Python `None`. -/
inductive Json where
  | null
  | bool (b : Bool)
  | num (n : Int)
  | str (s : String)
  | arr (xs : JsonArr)
  | obj (fields : JsonObj)
deriving DecidableEq

/-- A JSON array (Python list). -/
inductive JsonArr where
  | nil
  | cons (hd : Json) (tl : JsonArr)
deriving DecidableEq

/-- A JSON object (Python dict with unique keys). -/
inductive JsonObj where
  | nil
  | cons (key : String) (val : Json) (tl : JsonObj)
deriving DecidableEq
end

/-- Whether a JSON array is empty. -/
def JsonArr.isNil : JsonArr → Bool
  | .nil => true
  | .cons _ _ => false

/-- Whether a JSON object is empty. -/
def JsonObj.isNil : JsonObj → Bool
  | .nil => true
  | .cons _ _ _ => false

/-- Python truthiness of a `json.loads` value: `None`, `False`, `0`, `""`,
`[]` and `{}` are falsy, everything else truthy. -/
def Json.truthy : Json → Bool
  | .null => false
  | .bool b => b
  | .num n => n != 0
  | .str s => s != ""
  | .arr xs => !xs.isNil
  | .obj fs => !fs.isNil

/-- Python `dict.get(key, dflt)` on a JSON-decoded dict. -/
def JsonObj.getD : JsonObj → String → Json → Json
  | .nil, _, dflt => dflt
  | .cons k v tl, key, dflt => if k = key then v else tl.getD key dflt

/-- Whether a JSON-decoded dict has the given key. -/
def JsonObj.hasKey : JsonObj → String → Bool
  | .nil, _ => false
  | .cons k _ tl, key => k == key || tl.hasKey key

/-- Python `s.rstrip('/')` on a character list: drop all trailing slashes. -/
def rstripSlashList (cs : List Char) : List Char :=
  (cs.reverse.dropWhile (fun c => c = '/')).reverse

/-- Python `s.rstrip('/')`. -/
def rstripSlash (s : String) : String :=
  String.mk (rstripSlashList s.toList)

/-- Python `re.sub(r'-v\d+$', '', s)`: remove one trailing `-v<digits>`
suffix (nonempty digit run) if present. -/
def stripVersionSuffix (s : String) : String :=
  let r := s.toList.reverse
  let digits := r.takeWhile Char.isDigit
  let rest := r.dropWhile Char.isDigit
  if digits.isEmpty then s
  else
    match rest with
    | 'v' :: '-' :: t => String.mk t.reverse
    | _ => s

/-- Python `str.split(sep)` for a one-character separator: always returns at
least one (possibly empty) token. -/
def splitOnChar (sep : Char) : List Char → List (List Char)
  | [] => [[]]
  | c :: rest =>
    let r := splitOnChar sep rest
    if c = sep then [] :: r
    else (c :: r.headD []) :: r.tail

/-- Python `s.split(sep)` producing strings. -/
def splitTokens (sep : Char) (s : String) : List String :=
  (splitOnChar sep s.toList).map String.mk

/-- Python `'-'.join(parts)`. -/
def joinDash : List String → String
  | [] => ""
  | [t] => t
  | t :: ts => t ++ "-" ++ joinDash ts

/-- Result of `parse_snapshot_path`. -/
structure ParsedInfo where
  chain : String
  client : String
  network : String
  type : String
deriving DecidableEq

/-- The token list `parts` computed by `parse_snapshot_path`: strip trailing
slashes, strip the `-v<digits>` suffix, split on `-`. -/
def parseTokens (protocol_dir : String) : List String :=
  splitTokens '-' (stripVersionSuffix (rstripSlash protocol_dir))

/-- `SnapshotScannerService.parse_snapshot_path` (snapshot_scanner.py lines
21-64): with at least 4 tokens, work backwards from the end; otherwise fall
back positionally with defaults. -/
def parse_snapshot_path (protocol_dir : String) : ParsedInfo :=
  if 4 ≤ (parseTokens protocol_dir).length then
    { chain := joinDash ((parseTokens protocol_dir).take ((parseTokens protocol_dir).length - 3)),
      client := (parseTokens protocol_dir).getD ((parseTokens protocol_dir).length - 3) "",
      network := (parseTokens protocol_dir).getD ((parseTokens protocol_dir).length - 2) "",
      type := (parseTokens protocol_dir).getD ((parseTokens protocol_dir).length - 1) "" }
  else
    { chain := (parseTokens protocol_dir).getD 0 "unknown",
      client := (parseTokens protocol_dir).getD 1 "unknown",
      network := (parseTokens protocol_dir).getD 2 "mainnet",
      type := (parseTokens protocol_dir).getD 3 "archive" }

/-- One catalog row (`Snapshot` in db_models.py).  Nullable manifest-derived
columns hold `Json.null` for SQL `NULL`; timestamps are abstract instants. -/
structure SnapshotRec where
  chain : String
  client : String
  network : String
  type : String
  snapshot_path : String
  snapshot_id : String
  manifest_body_path : String
  manifest_header_path : Option String
  total_size_bytes : Json
  total_chunks : Json
  compression_type : Json
  snapshot_metadata : Json
  external_metadata : Json
  indexed_at : Nat
  last_updated_at : Nat
  is_active : Bool
deriving DecidableEq

/-- Outcome of `head_object` on `manifest-body.json` for one version
directory: success, `NoSuchKey`, or some other exception (with its message). -/
inductive BodyHeadResult where
  | found
  | missing
  | headErr (msg : String)
deriving DecidableEq

/-- Outcome of `get_object` + `json.loads` on `manifest-header.json`:
fetched (with `some` parsed value, or `none` when `json.loads` raises),
`NoSuchKey`, or some other fetch error.  All three failure shapes are caught
by the inner `try` of `_scan_all_snapshots`. -/
inductive HeaderFetchResult where
  | fetched (parsed : Option Json)
  | missing
  | fetchErr
deriving DecidableEq

/-- One version directory as observed by the pass, with the outcomes of the
two per-directory S3 calls. -/
structure VersionDir where
  name : String
  bodyHead : BodyHeadResult
  headerGet : HeaderFetchResult
deriving DecidableEq

/-- One protocol directory (top-level prefix) and its version prefixes. -/
structure ProtocolDir where
  name : String
  versions : List VersionDir
deriving DecidableEq

/-- The object store as observed by one pass.  `traversalError` models an
exception raised by the listing paginators after the given prefixes were
enumerated; it is caught by the outer `except` of `_scan_all_snapshots`. -/
structure Store where
  protocols : List ProtocolDir
  traversalError : Option String
deriving DecidableEq

/-- The four locals `header_data`, `total_size`, `total_chunks`,
`compression_type` after the header-manifest block (lines 312-335). -/
structure HeaderData where
  header_data : Json
  total_size : Json
  total_chunks : Json
  compression_type : Json
deriving DecidableEq

/-- Extraction from a successfully parsed header value.  A non-dict value
leaves the metrics `None`: the first `.get` raises `AttributeError`, which the
inner `except` catches after `header_data` was already assigned. -/
def extractFromJson : Json → HeaderData
  | Json.obj fields =>
      ⟨Json.obj fields,
       fields.getD "total_size" (Json.num 0),
       fields.getD "chunks" (Json.num 0),
       match fields.getD "compression" (Json.obj .nil) with
       | Json.obj cf => cf.getD "algorithm" Json.null
       | _ => Json.null⟩
  | j => ⟨j, Json.null, Json.null, Json.null⟩

/-- Lines 312-335: any fetch or parse failure leaves all four locals `None`. -/
def extractHeader : HeaderFetchResult → HeaderData
  | .fetched (some j) => extractFromJson j
  | _ => ⟨Json.null, Json.null, Json.null, Json.null⟩

/-- `db.query(Snapshot).filter(Snapshot.snapshot_path == path).first()`. -/
def findSnapshot (db : List SnapshotRec) (path : String) : Option SnapshotRec :=
  db.find? (fun r => r.snapshot_path == path)

/-- In-place mutation of the queried row followed by `db.commit()`: replace
the first row whose `snapshot_path` matches. -/
def updateFirst (path : String) (r' : SnapshotRec) : List SnapshotRec → List SnapshotRec
  | [] => []
  | r :: rs => if r.snapshot_path == path then r' :: rs else r :: updateFirst path r' rs

/-- The existing-record branch (lines 337-356): three sequential
truthiness-guarded field comparisons setting `updated`, then the timestamp
stamp and metadata refresh when `updated` is set.  Returns the mutated row and
the `updated` flag. -/
def applyUpdate (now : Nat) (sr : SnapshotRec) (hd : HeaderData) : SnapshotRec × Bool :=
  let s1 : SnapshotRec × Bool :=
    if hd.total_size.truthy ∧ sr.total_size_bytes ≠ hd.total_size then
      ({ sr with total_size_bytes := hd.total_size }, true)
    else (sr, false)
  let s2 : SnapshotRec × Bool :=
    if hd.total_chunks.truthy ∧ s1.1.total_chunks ≠ hd.total_chunks then
      ({ s1.1 with total_chunks := hd.total_chunks }, true)
    else s1
  let s3 : SnapshotRec × Bool :=
    if hd.compression_type.truthy ∧ s2.1.compression_type ≠ hd.compression_type then
      ({ s2.1 with compression_type := hd.compression_type }, true)
    else s2
  if s3.2 then
    ({ s3.1 with
        last_updated_at := now,
        snapshot_metadata :=
          if hd.header_data.truthy then hd.header_data else s3.1.snapshot_metadata },
     true)
  else s3

/-- `version_dir.rstrip('/').split('/')[-1]` (lines 300-301). -/
def snapshotIdOf (version_dir : String) : String :=
  (splitTokens '/' (rstripSlash version_dir)).getLastD ""

/-- The new-record constructor call (lines 359-373); unset columns take their
SQLAlchemy defaults (`external_metadata` NULL, `is_active` True,
`last_updated_at` now). -/
def makeRecord (now : Nat) (protocol_dir version_dir : String) (hd : HeaderData) : SnapshotRec :=
  { chain := (parse_snapshot_path protocol_dir).chain,
    client := (parse_snapshot_path protocol_dir).client,
    network := (parse_snapshot_path protocol_dir).network,
    type := (parse_snapshot_path protocol_dir).type,
    snapshot_path := rstripSlash version_dir,
    snapshot_id := snapshotIdOf version_dir,
    manifest_body_path := version_dir ++ "manifest-body.json",
    manifest_header_path :=
      if hd.header_data.truthy then some (version_dir ++ "manifest-header.json") else none,
    total_size_bytes := hd.total_size,
    total_chunks := hd.total_chunks,
    compression_type := hd.compression_type,
    snapshot_metadata := hd.header_data,
    external_metadata := Json.null,
    indexed_at := now,
    last_updated_at := now,
    is_active := true }

/-- The natural key derived from a version directory. -/
def pathOf (vd : VersionDir) : String := rstripSlash vd.name

/-- Accumulated state of one `_scan_all_snapshots` pass: catalog plus the
counters, error list and visited-prefix list. -/
structure ScanAcc where
  db : List SnapshotRec
  snapshots_found : Nat
  new_snapshots : Nat
  updated_snapshots : Nat
  errors : List String
  prefixes_scanned : List String
deriving DecidableEq

/-- Processing of one version prefix (lines 283-388): skip empty prefixes,
skip silently on `NoSuchKey` for the body manifest, record a per-item error on
any other body-check failure, and otherwise create or update the catalog
row. -/
def processVersion (now : Nat) (protocol_dir : String) (vd : VersionDir) (acc : ScanAcc) :
    ScanAcc :=
  if vd.name = "" then acc
  else
    match vd.bodyHead with
    | .missing => acc
    | .headErr msg =>
        { acc with errors := acc.errors ++ ["Error processing " ++ vd.name ++ ": " ++ msg] }
    | .found =>
        let hd := extractHeader vd.headerGet
        match findSnapshot acc.db (pathOf vd) with
        | some sr =>
            let ru := applyUpdate now sr hd
            if ru.2 then
              { acc with
                  db := updateFirst (pathOf vd) ru.1 acc.db,
                  updated_snapshots := acc.updated_snapshots + 1,
                  snapshots_found := acc.snapshots_found + 1 }
            else { acc with snapshots_found := acc.snapshots_found + 1 }
        | none =>
            { acc with
                db := acc.db ++ [makeRecord now protocol_dir vd.name hd],
                new_snapshots := acc.new_snapshots + 1,
                snapshots_found := acc.snapshots_found + 1 }

/-- The inner loop over one protocol directory's version prefixes. -/
def scanVersions (now : Nat) (protocol_dir : String) (vds : List VersionDir) (acc : ScanAcc) :
    ScanAcc :=
  vds.foldl (fun a vd => processVersion now protocol_dir vd a) acc

/-- Processing of one protocol directory (lines 266-279): skip empty
prefixes, record the visited prefix, then walk its version prefixes. -/
def scanProtocol (now : Nat) (pd : ProtocolDir) (acc : ScanAcc) : ScanAcc :=
  if pd.name = "" then acc
  else
    scanVersions now pd.name pd.versions
      { acc with prefixes_scanned := acc.prefixes_scanned ++ [rstripSlash pd.name] }

/-- The outer loop over top-level prefixes. -/
def scanProtocols (now : Nat) (pds : List ProtocolDir) (acc : ScanAcc) : ScanAcc :=
  pds.foldl (fun a pd => scanProtocol now pd a) acc

/-- Fresh accumulator for one pass over the given catalog. -/
def initAcc (db : List SnapshotRec) : ScanAcc :=
  { db := db, snapshots_found := 0, new_snapshots := 0, updated_snapshots := 0,
    errors := [], prefixes_scanned := [] }

/-- `_scan_all_snapshots` (lines 242-401): walk the two-level prefix tree,
then append the single "Error scanning bucket" entry if the traversal itself
raised. -/
def scanAllSnapshots (now : Nat) (store : Store) (db : List SnapshotRec) : ScanAcc :=
  let acc := scanProtocols now store.protocols (initAcc db)
  match store.traversalError with
  | some e => { acc with errors := acc.errors ++ ["Error scanning bucket: " ++ e] }
  | none => acc

/-- One `ScanHistory` row (db_models.py lines 84-104, float duration
omitted). -/
structure ScanHistoryRec where
  started_at : Nat
  completed_at : Option Nat
  scan_type : String
  snapshots_found : Nat
  new_snapshots : Nat
  updated_snapshots : Nat
  errors : Option (List String)
  prefixes_scanned : Option (List String)
deriving DecidableEq

/-- The dict returned by `_run_single_scan`: the `status == "completed"` shape
(lines 219-229) or the `status == "error"` shape (lines 236-240), which has no
`errors` list at all. -/
inductive ScanReturn where
  | completed (scan_type : String)
      (snapshots_found new_snapshots updated_snapshots chains_scanned : Nat)
      (errors : List String)
  | fatalError (message : String)
deriving DecidableEq

/-- Everything `_run_single_scan` leaves behind: the closed `ScanHistory` row,
the catalog, and the returned dict. -/
structure RunResult where
  history : ScanHistoryRec
  db : List SnapshotRec
  ret : ScanReturn
deriving DecidableEq

/-- `_run_single_scan` (lines 167-240).  `initFailure` models an exception
raised outside `_scan_all_snapshots`'s own handlers (e.g. `get_s3_client` at
line 189): it lands in the fatal `except` branch.  `_scan_all_snapshots`
itself never raises, so with `initFailure = none` the completed branch always
runs; `scan_history.errors` is `errors if errors else None`. -/
def runSingleScan (now : Nat) (store : Store) (db : List SnapshotRec) (scan_type : String)
    (initFailure : Option String) : RunResult :=
  let hist0 : ScanHistoryRec :=
    { started_at := now, completed_at := none, scan_type := scan_type,
      snapshots_found := 0, new_snapshots := 0, updated_snapshots := 0,
      errors := none, prefixes_scanned := none }
  match initFailure with
  | some m =>
      { history := { hist0 with completed_at := some now, errors := some ["Fatal error: " ++ m] },
        db := db,
        ret := .fatalError m }
  | none =>
      let r := scanAllSnapshots now store db
      { history :=
          { hist0 with
              completed_at := some now,
              snapshots_found := r.snapshots_found,
              new_snapshots := r.new_snapshots,
              updated_snapshots := r.updated_snapshots,
              errors := if r.errors = [] then none else some r.errors,
              prefixes_scanned := some r.prefixes_scanned },
        db := r.db,
        ret := .completed scan_type r.snapshots_found r.new_snapshots r.updated_snapshots
          r.prefixes_scanned.length r.errors }

/-- `scan_now` (lines 118-126): one manual pass. -/
def scan_now (now : Nat) (store : Store) (db : List SnapshotRec)
    (initFailure : Option String) : RunResult :=
  runSingleScan now store db "manual" initFailure

/-- A stored metric agrees with the freshly extracted one whenever the
extracted one is truthy — exactly the state in which the update branch writes
nothing. -/
def metricSynced (stored extracted : Json) : Prop :=
  extracted.truthy = true → stored = extracted

/-- A version directory is settled in a catalog: if it would be processed as a
snapshot at all, its row exists and all three metrics are synced. -/
def vdSettled (db : List SnapshotRec) (vd : VersionDir) : Prop :=
  vd.name ≠ "" → vd.bodyHead = .found →
    ∃ sr, findSnapshot db (pathOf vd) = some sr ∧
      metricSynced sr.total_size_bytes (extractHeader vd.headerGet).total_size ∧
      metricSynced sr.total_chunks (extractHeader vd.headerGet).total_chunks ∧
      metricSynced sr.compression_type (extractHeader vd.headerGet).compression_type

/-- The version directories a pass actually processes for one protocol
directory. -/
def protocolItems (pd : ProtocolDir) : List VersionDir :=
  if pd.name = "" then [] else pd.versions

/-- All natural keys the pass touches; an object store lists each prefix
once, so these are pairwise distinct for a real store. -/
def storePaths : List ProtocolDir → List String
  | [] => []
  | pd :: rest => (protocolItems pd).map pathOf ++ storePaths rest

/-- Concrete header used in witnesses: `total_size` 0, `chunks` 9,
`compression.algorithm` "zstd". -/
def hdrZero : Json :=
  Json.obj (.cons "total_size" (Json.num 0)
    (.cons "chunks" (Json.num 9)
      (.cons "compression" (Json.obj (.cons "algorithm" (Json.str "zstd") .nil)) .nil)))

/-- Concrete catalog row used in witnesses: stored size 7, chunks 9,
compression "zstd". -/
def srSeven : SnapshotRec :=
  { chain := "ethereum", client := "reth", network := "mainnet", type := "archive",
    snapshot_path := "ethereum-reth-mainnet-archive-v1/1", snapshot_id := "1",
    manifest_body_path := "ethereum-reth-mainnet-archive-v1/1/manifest-body.json",
    manifest_header_path := none,
    total_size_bytes := Json.num 7, total_chunks := Json.num 9,
    compression_type := Json.str "zstd", snapshot_metadata := Json.null,
    external_metadata := Json.str "curated", indexed_at := 0, last_updated_at := 0,
    is_active := true }

/-- Concrete version directory used in witnesses, with body manifest present
and header `hdrZero`. -/
def vdZero : VersionDir :=
  { name := "ethereum-reth-mainnet-archive-v1/1/", bodyHead := .found,
    headerGet := .fetched (some hdrZero) }

/-- Concrete header used in witnesses: truthy `total_size` 12 differing from
`srSeven`'s stored 7, other metrics unchanged. -/
def hdrTwelve : Json :=
  Json.obj (.cons "total_size" (Json.num 12)
    (.cons "chunks" (Json.num 9)
      (.cons "compression" (Json.obj (.cons "algorithm" (Json.str "zstd") .nil)) .nil)))

/-- Concrete version directory used in witnesses, with header `hdrTwelve`. -/
def vdTwelve : VersionDir :=
  { name := "ethereum-reth-mainnet-archive-v1/1/", bodyHead := .found,
    headerGet := .fetched (some hdrTwelve) }

/-- Concrete version directory used in witnesses whose header manifest fails
to parse. -/
def vdBadHeader : VersionDir :=
  { name := "ethereum-reth-mainnet-archive-v1/2/", bodyHead := .found,
    headerGet := .fetched none }

/-- Concrete version directory used in witnesses whose header manifest is an
empty JSON object. -/
def vdEmptyHeader : VersionDir :=
  { name := "ethereum-reth-mainnet-archive-v1/3/", bodyHead := .found,
    headerGet := .fetched (some (Json.obj .nil)) }

/-- Concrete healthy one-protocol store used in witnesses. -/
def storeOne : Store :=
  { protocols := [{ name := "ethereum-reth-mainnet-archive-v1/", versions := [vdZero] }],
    traversalError := none }

/-- Concrete store used in witnesses whose traversal raises after one
protocol directory. -/
def storeBroken : Store :=
  { protocols := [{ name := "ethereum-reth-mainnet-archive-v1/", versions := [vdZero] }],
    traversalError := some "connection reset" }

theorem findSnapshot_path {db : List SnapshotRec} {path : String} {sr : SnapshotRec}
    (h : findSnapshot db path = some sr) : sr.snapshot_path = path := by
  have := List.find?_some h
  exact eq_of_beq this

theorem findSnapshot_cons_pos {r : SnapshotRec} {rs : List SnapshotRec} {path : String}
    (h : (r.snapshot_path == path) = true) : findSnapshot (r :: rs) path = some r := by
  simp only [findSnapshot]
  exact List.find?_cons_of_pos _ h

theorem findSnapshot_cons_neg {r : SnapshotRec} {rs : List SnapshotRec} {path : String}
    (h : (r.snapshot_path == path) = false) :
    findSnapshot (r :: rs) path = findSnapshot rs path := by
  simp only [findSnapshot]
  exact List.find?_cons_of_neg _ (by simp [h])

theorem findSnapshot_updateFirst_self {db : List SnapshotRec} {path : String}
    {sr r' : SnapshotRec} (h : findSnapshot db path = some sr)
    (hp : r'.snapshot_path = path) :
    findSnapshot (updateFirst path r' db) path = some r' := by
  induction db with
  | nil => simp [findSnapshot] at h
  | cons r rs ih =>
      cases hr : (r.snapshot_path == path) with
      | true =>
          simp only [updateFirst]
          rw [if_pos hr]
          exact findSnapshot_cons_pos (by simp [hp])
      | false =>
          rw [findSnapshot_cons_neg hr] at h
          simp only [updateFirst]
          rw [if_neg (by simp [hr]), findSnapshot_cons_neg hr]
          exact ih h

theorem findSnapshot_updateFirst_ne {db : List SnapshotRec} {path q : String}
    {r' : SnapshotRec} (hne : q ≠ path) (hp : r'.snapshot_path = path) :
    findSnapshot (updateFirst path r' db) q = findSnapshot db q := by
  induction db with
  | nil => rfl
  | cons r rs ih =>
      cases hr : (r.snapshot_path == path) with
      | true =>
          have hr' : r.snapshot_path = path := eq_of_beq hr
          have h1 : (r'.snapshot_path == q) = false :=
            beq_eq_false_iff_ne.mpr (by rw [hp]; exact Ne.symm hne)
          have h2 : (r.snapshot_path == q) = false :=
            beq_eq_false_iff_ne.mpr (by rw [hr']; exact Ne.symm hne)
          simp only [updateFirst]
          rw [if_pos hr, findSnapshot_cons_neg h1, findSnapshot_cons_neg h2]
      | false =>
          simp only [updateFirst]
          rw [if_neg (by simp [hr])]
          cases hq : (r.snapshot_path == q) with
          | true => rw [findSnapshot_cons_pos hq, findSnapshot_cons_pos hq]
          | false => rw [findSnapshot_cons_neg hq, findSnapshot_cons_neg hq]; exact ih

theorem findSnapshot_append_self {db : List SnapshotRec} {path : String}
    {r : SnapshotRec} (h : findSnapshot db path = none) (hp : r.snapshot_path = path) :
    findSnapshot (db ++ [r]) path = some r := by
  simp only [findSnapshot] at h ⊢
  rw [List.find?_append, h]
  simp [List.find?, hp]

theorem findSnapshot_append_ne {db : List SnapshotRec} {path q : String}
    {r : SnapshotRec} (hne : q ≠ path) (hp : r.snapshot_path = path) :
    findSnapshot (db ++ [r]) q = findSnapshot db q := by
  simp only [findSnapshot]
  rw [List.find?_append]
  have h1 : List.find? (fun x => x.snapshot_path == q) [r] = none := by
    have : (r.snapshot_path == q) = false :=
      beq_eq_false_iff_ne.mpr (by rw [hp]; exact Ne.symm hne)
    simp [List.find?, this]
  rw [h1]
  cases List.find? (fun x => x.snapshot_path == q) db <;> rfl

theorem findSnapshot_append_of_some {db : List SnapshotRec} {path : String}
    {sr r : SnapshotRec} (h : findSnapshot db path = some sr) :
    findSnapshot (db ++ [r]) path = some sr := by
  simp only [findSnapshot] at h ⊢
  rw [List.find?_append, h]
  rfl

theorem jsonObj_getD_of_no_key : ∀ (fs : JsonObj) (k : String) (d : Json),
    fs.hasKey k = false → fs.getD k d = d
  | .nil, _, _, _ => rfl
  | .cons key v tl, k, d, h => by
      simp only [JsonObj.hasKey, Bool.or_eq_false_iff, beq_eq_false_iff_ne] at h
      simp only [JsonObj.getD, if_neg h.1]
      exact jsonObj_getD_of_no_key tl k d h.2

/-- C2: for every directory name whose cleaned form splits into at least 4
dash-separated tokens, `parse_snapshot_path` takes the last token as type, the
second-to-last as network, the third-to-last as client, and joins the leading
remainder with `-` as chain. -/
theorem parse_four_tokens_spec (s : String)
    (h : 4 ≤ (parseTokens s).length) :
    parse_snapshot_path s =
      { chain := joinDash ((parseTokens s).take ((parseTokens s).length - 3)),
        client := (parseTokens s).getD ((parseTokens s).length - 3) "",
        network := (parseTokens s).getD ((parseTokens s).length - 2) "",
        type := (parseTokens s).getD ((parseTokens s).length - 1) "" } := by
  unfold parse_snapshot_path
  rw [if_pos h]

/-- C2 witness: the spec's own example. -/
theorem parse_four_tokens_spec_witness :
    4 ≤ (parseTokens "arbitrum-one-nitro-mainnet-full-v1").length ∧
    parse_snapshot_path "arbitrum-one-nitro-mainnet-full-v1" =
      { chain := "arbitrum-one", client := "nitro", network := "mainnet", type := "full" } := by
  refine ⟨by decide, ?_⟩
  rw [parse_four_tokens_spec "arbitrum-one-nitro-mainnet-full-v1" (by decide)]
  decide

/-- C7: for every directory name yielding fewer than 4 tokens (the empty
string included), `parse_snapshot_path` never fails and falls back
positionally: token 0 or "unknown" as chain, token 1 or "unknown" as client,
token 2 or "mainnet" as network, and always "archive" as type. -/
theorem parse_fallback_defaults (s : String)
    (h : (parseTokens s).length < 4) :
    parse_snapshot_path s =
      { chain := (parseTokens s).getD 0 "unknown",
        client := (parseTokens s).getD 1 "unknown",
        network := (parseTokens s).getD 2 "mainnet",
        type := (parseTokens s).getD 3 "archive" } ∧
    (parse_snapshot_path s).type = "archive" := by
  have h' : ¬ 4 ≤ (parseTokens s).length := Nat.not_le.mpr h
  constructor
  · unfold parse_snapshot_path
    rw [if_neg h']
  · unfold parse_snapshot_path
    rw [if_neg h']
    exact List.getD_eq_default _ _ (by omega)

/-- C7 witness: the empty directory name. -/
theorem parse_fallback_defaults_witness :
    (parseTokens "").length < 4 ∧
    parse_snapshot_path "" =
      { chain := "", client := "unknown", network := "mainnet", type := "archive" } := by
  refine ⟨by decide, ?_⟩
  rw [(parse_fallback_defaults "" (by decide)).1]
  decide

/-- C4: a version directory whose `manifest-body.json` is absent (`NoSuchKey`)
is skipped silently: the pass state — catalog, all three counters, error list
and prefix list — is completely unchanged, and the loop continues with the next
directory. -/
theorem missing_body_skips_silently (now : Nat) (protocol_dir : String) (vd : VersionDir)
    (acc : ScanAcc) (h : vd.bodyHead = .missing) :
    processVersion now protocol_dir vd acc = acc := by
  unfold processVersion
  by_cases hn : vd.name = ""
  · rw [if_pos hn]
  · rw [if_neg hn, h]

/-- C4 witness. -/
theorem missing_body_skips_silently_witness :
    ({ name := "ethereum-reth-mainnet-archive-v1/1/", bodyHead := .missing,
       headerGet := .missing } : VersionDir).bodyHead = .missing ∧
    processVersion 3 "ethereum-reth-mainnet-archive-v1/"
      { name := "ethereum-reth-mainnet-archive-v1/1/", bodyHead := .missing,
        headerGet := .missing } (initAcc [srSeven]) = initAcc [srSeven] :=
  ⟨rfl, missing_body_skips_silently 3 "ethereum-reth-mainnet-archive-v1/" _ _ rfl⟩

theorem applyUpdate_spec (now : Nat) (sr : SnapshotRec) (hd : HeaderData) :
    (applyUpdate now sr hd).1.total_size_bytes =
      (if hd.total_size.truthy ∧ sr.total_size_bytes ≠ hd.total_size
       then hd.total_size else sr.total_size_bytes) ∧
    (applyUpdate now sr hd).1.total_chunks =
      (if hd.total_chunks.truthy ∧ sr.total_chunks ≠ hd.total_chunks
       then hd.total_chunks else sr.total_chunks) ∧
    (applyUpdate now sr hd).1.compression_type =
      (if hd.compression_type.truthy ∧ sr.compression_type ≠ hd.compression_type
       then hd.compression_type else sr.compression_type) ∧
    ((applyUpdate now sr hd).2 = true ↔
      ((hd.total_size.truthy ∧ sr.total_size_bytes ≠ hd.total_size) ∨
       (hd.total_chunks.truthy ∧ sr.total_chunks ≠ hd.total_chunks) ∨
       (hd.compression_type.truthy ∧ sr.compression_type ≠ hd.compression_type))) ∧
    (applyUpdate now sr hd).1.last_updated_at =
      (if (applyUpdate now sr hd).2 then now else sr.last_updated_at) ∧
    (applyUpdate now sr hd).1.snapshot_metadata =
      (if (applyUpdate now sr hd).2 ∧ hd.header_data.truthy
       then hd.header_data else sr.snapshot_metadata) ∧
    (applyUpdate now sr hd).1.chain = sr.chain ∧
    (applyUpdate now sr hd).1.client = sr.client ∧
    (applyUpdate now sr hd).1.network = sr.network ∧
    (applyUpdate now sr hd).1.type = sr.type ∧
    (applyUpdate now sr hd).1.snapshot_path = sr.snapshot_path ∧
    (applyUpdate now sr hd).1.snapshot_id = sr.snapshot_id ∧
    (applyUpdate now sr hd).1.manifest_body_path = sr.manifest_body_path ∧
    (applyUpdate now sr hd).1.manifest_header_path = sr.manifest_header_path ∧
    (applyUpdate now sr hd).1.indexed_at = sr.indexed_at ∧
    (applyUpdate now sr hd).1.is_active = sr.is_active ∧
    (applyUpdate now sr hd).1.external_metadata = sr.external_metadata ∧
    ((applyUpdate now sr hd).2 = false → (applyUpdate now sr hd).1 = sr) := by
  by_cases h1 : hd.total_size.truthy ∧ sr.total_size_bytes ≠ hd.total_size <;>
  by_cases h2 : hd.total_chunks.truthy ∧ sr.total_chunks ≠ hd.total_chunks <;>
  by_cases h3 : hd.compression_type.truthy ∧ sr.compression_type ≠ hd.compression_type <;>
  by_cases h4 : hd.header_data.truthy <;>
  simp [applyUpdate, h1, h2, h3, h4]

theorem processVersion_headErr (now : Nat) (protocol_dir : String) (vd : VersionDir)
    (acc : ScanAcc) (msg : String) (hn : vd.name ≠ "") (hb : vd.bodyHead = .headErr msg) :
    processVersion now protocol_dir vd acc =
      { acc with errors := acc.errors ++ ["Error processing " ++ vd.name ++ ": " ++ msg] } := by
  unfold processVersion
  rw [if_neg hn, hb]

theorem processVersion_found_existing (now : Nat) (protocol_dir : String) (vd : VersionDir)
    (acc : ScanAcc) (sr : SnapshotRec) (hn : vd.name ≠ "") (hb : vd.bodyHead = .found)
    (hf : findSnapshot acc.db (pathOf vd) = some sr) :
    processVersion now protocol_dir vd acc =
      (if (applyUpdate now sr (extractHeader vd.headerGet)).2 then
        { acc with
            db := updateFirst (pathOf vd) (applyUpdate now sr (extractHeader vd.headerGet)).1
              acc.db,
            updated_snapshots := acc.updated_snapshots + 1,
            snapshots_found := acc.snapshots_found + 1 }
      else { acc with snapshots_found := acc.snapshots_found + 1 }) := by
  unfold processVersion
  rw [if_neg hn, hb, hf]

theorem processVersion_found_new (now : Nat) (protocol_dir : String) (vd : VersionDir)
    (acc : ScanAcc) (hn : vd.name ≠ "") (hb : vd.bodyHead = .found)
    (hf : findSnapshot acc.db (pathOf vd) = none) :
    processVersion now protocol_dir vd acc =
      { acc with
          db := acc.db ++ [makeRecord now protocol_dir vd.name (extractHeader vd.headerGet)],
          new_snapshots := acc.new_snapshots + 1,
          snapshots_found := acc.snapshots_found + 1 } := by
  unfold processVersion
  rw [if_neg hn, hb, hf]

/-- C1 counterexample: the claim's overwrite condition "non-null and differs"
is wrong.  With body manifest present, an existing record storing size 7, and
a header whose `total_size` is 0 (non-null, and different from 7) while chunks
and compression match the stored values, the claim mandates an overwrite, a
`last_updated_at` stamp and an `updated` increment; the code's truthiness
guard (`if total_size and ...`) performs no write and no increment: the
resulting pass state is the input state with only `snapshots_found` bumped. -/
theorem update_nonnull_claim_counterexample :
    (extractHeader vdZero.headerGet).total_size = Json.num 0 ∧
    Json.num 0 ≠ Json.null ∧
    srSeven.total_size_bytes = Json.num 7 ∧
    (Json.num 0 : Json) ≠ Json.num 7 ∧
    vdZero.bodyHead = .found ∧
    findSnapshot (initAcc [srSeven]).db (pathOf vdZero) = some srSeven ∧
    processVersion 5 "ethereum-reth-mainnet-archive-v1/" vdZero (initAcc [srSeven]) =
      { initAcc [srSeven] with snapshots_found := 1 } := by
  decide

/-- C1 (amended): for a version directory whose record already exists, each
manifest-derived field is overwritten exactly when the newly extracted value
is truthy (non-null AND nonzero/nonempty) and differs from the stored value;
`last_updated_at` is stamped exactly when such an overwrite happens; the
`updated` counter is incremented iff at least one field actually changed; and
an unchanged record produces no write at all. -/
theorem reconcile_existing_update (now : Nat) (protocol_dir : String) (vd : VersionDir)
    (acc : ScanAcc) (sr : SnapshotRec)
    (hn : vd.name ≠ "") (hb : vd.bodyHead = .found)
    (hf : findSnapshot acc.db (pathOf vd) = some sr) :
    ∃ sr',
      findSnapshot (processVersion now protocol_dir vd acc).db (pathOf vd) = some sr' ∧
      sr'.total_size_bytes =
        (if (extractHeader vd.headerGet).total_size.truthy ∧
            sr.total_size_bytes ≠ (extractHeader vd.headerGet).total_size
         then (extractHeader vd.headerGet).total_size else sr.total_size_bytes) ∧
      sr'.total_chunks =
        (if (extractHeader vd.headerGet).total_chunks.truthy ∧
            sr.total_chunks ≠ (extractHeader vd.headerGet).total_chunks
         then (extractHeader vd.headerGet).total_chunks else sr.total_chunks) ∧
      sr'.compression_type =
        (if (extractHeader vd.headerGet).compression_type.truthy ∧
            sr.compression_type ≠ (extractHeader vd.headerGet).compression_type
         then (extractHeader vd.headerGet).compression_type else sr.compression_type) ∧
      sr'.last_updated_at =
        (if ((extractHeader vd.headerGet).total_size.truthy ∧
              sr.total_size_bytes ≠ (extractHeader vd.headerGet).total_size) ∨
            ((extractHeader vd.headerGet).total_chunks.truthy ∧
              sr.total_chunks ≠ (extractHeader vd.headerGet).total_chunks) ∨
            ((extractHeader vd.headerGet).compression_type.truthy ∧
              sr.compression_type ≠ (extractHeader vd.headerGet).compression_type)
         then now else sr.last_updated_at) ∧
      (processVersion now protocol_dir vd acc).updated_snapshots =
        acc.updated_snapshots +
          (if ((extractHeader vd.headerGet).total_size.truthy ∧
                sr.total_size_bytes ≠ (extractHeader vd.headerGet).total_size) ∨
              ((extractHeader vd.headerGet).total_chunks.truthy ∧
                sr.total_chunks ≠ (extractHeader vd.headerGet).total_chunks) ∨
              ((extractHeader vd.headerGet).compression_type.truthy ∧
                sr.compression_type ≠ (extractHeader vd.headerGet).compression_type)
           then 1 else 0) ∧
      (¬ (((extractHeader vd.headerGet).total_size.truthy ∧
            sr.total_size_bytes ≠ (extractHeader vd.headerGet).total_size) ∨
          ((extractHeader vd.headerGet).total_chunks.truthy ∧
            sr.total_chunks ≠ (extractHeader vd.headerGet).total_chunks) ∨
          ((extractHeader vd.headerGet).compression_type.truthy ∧
            sr.compression_type ≠ (extractHeader vd.headerGet).compression_type)) →
        (processVersion now protocol_dir vd acc).db = acc.db) := by
  have hsp : sr.snapshot_path = pathOf vd := findSnapshot_path hf
  obtain ⟨e1, e2, e3, e4, e5, e6, e7, e8, e9, e10, e11, e12, e13, e14, e15, e16, e17, e18⟩ :=
    applyUpdate_spec now sr (extractHeader vd.headerGet)
  rw [processVersion_found_existing now protocol_dir vd acc sr hn hb hf]
  by_cases hu : (applyUpdate now sr (extractHeader vd.headerGet)).2 = true
  · have hdisj := e4.mp hu
    rw [if_pos hu]
    refine ⟨(applyUpdate now sr (extractHeader vd.headerGet)).1, ?_, e1, e2, e3, ?_, ?_, ?_⟩
    · exact findSnapshot_updateFirst_self hf (by rw [e11, hsp])
    · rw [e5, if_pos hu, if_pos hdisj]
    · rw [if_pos hdisj]
    · intro hnd
      exact absurd hdisj hnd
  · have hnd : ¬ (((extractHeader vd.headerGet).total_size.truthy ∧
        sr.total_size_bytes ≠ (extractHeader vd.headerGet).total_size) ∨
        ((extractHeader vd.headerGet).total_chunks.truthy ∧
          sr.total_chunks ≠ (extractHeader vd.headerGet).total_chunks) ∨
        ((extractHeader vd.headerGet).compression_type.truthy ∧
          sr.compression_type ≠ (extractHeader vd.headerGet).compression_type)) :=
      fun hdd => hu (e4.mpr hdd)
    have hne1 : ¬ ((extractHeader vd.headerGet).total_size.truthy ∧
        sr.total_size_bytes ≠ (extractHeader vd.headerGet).total_size) :=
      fun hc => hnd (Or.inl hc)
    have hne2 : ¬ ((extractHeader vd.headerGet).total_chunks.truthy ∧
        sr.total_chunks ≠ (extractHeader vd.headerGet).total_chunks) :=
      fun hc => hnd (Or.inr (Or.inl hc))
    have hne3 : ¬ ((extractHeader vd.headerGet).compression_type.truthy ∧
        sr.compression_type ≠ (extractHeader vd.headerGet).compression_type) :=
      fun hc => hnd (Or.inr (Or.inr hc))
    rw [if_neg hu]
    refine ⟨sr, hf, ?_, ?_, ?_, ?_, ?_, fun _ => rfl⟩
    · rw [if_neg hne1]
    · rw [if_neg hne2]
    · rw [if_neg hne3]
    · rw [if_neg hnd]
    · rw [if_neg hnd]
      rfl

/-- C1 witness: a truthy, differing `total_size` (12 against stored 7). -/
theorem reconcile_existing_update_witness :
    vdTwelve.name ≠ "" ∧ vdTwelve.bodyHead = .found ∧
    findSnapshot (initAcc [srSeven]).db (pathOf vdTwelve) = some srSeven ∧
    (∃ sr',
      findSnapshot (processVersion 5 "ethereum-reth-mainnet-archive-v1/" vdTwelve
        (initAcc [srSeven])).db (pathOf vdTwelve) = some sr' ∧
      sr'.total_size_bytes =
        (if (extractHeader vdTwelve.headerGet).total_size.truthy ∧
            srSeven.total_size_bytes ≠ (extractHeader vdTwelve.headerGet).total_size
         then (extractHeader vdTwelve.headerGet).total_size else srSeven.total_size_bytes) ∧
      sr'.total_chunks =
        (if (extractHeader vdTwelve.headerGet).total_chunks.truthy ∧
            srSeven.total_chunks ≠ (extractHeader vdTwelve.headerGet).total_chunks
         then (extractHeader vdTwelve.headerGet).total_chunks else srSeven.total_chunks) ∧
      sr'.compression_type =
        (if (extractHeader vdTwelve.headerGet).compression_type.truthy ∧
            srSeven.compression_type ≠ (extractHeader vdTwelve.headerGet).compression_type
         then (extractHeader vdTwelve.headerGet).compression_type
         else srSeven.compression_type) ∧
      sr'.last_updated_at =
        (if ((extractHeader vdTwelve.headerGet).total_size.truthy ∧
              srSeven.total_size_bytes ≠ (extractHeader vdTwelve.headerGet).total_size) ∨
            ((extractHeader vdTwelve.headerGet).total_chunks.truthy ∧
              srSeven.total_chunks ≠ (extractHeader vdTwelve.headerGet).total_chunks) ∨
            ((extractHeader vdTwelve.headerGet).compression_type.truthy ∧
              srSeven.compression_type ≠ (extractHeader vdTwelve.headerGet).compression_type)
         then 5 else srSeven.last_updated_at) ∧
      (processVersion 5 "ethereum-reth-mainnet-archive-v1/" vdTwelve
        (initAcc [srSeven])).updated_snapshots =
        (initAcc [srSeven]).updated_snapshots +
          (if ((extractHeader vdTwelve.headerGet).total_size.truthy ∧
                srSeven.total_size_bytes ≠ (extractHeader vdTwelve.headerGet).total_size) ∨
              ((extractHeader vdTwelve.headerGet).total_chunks.truthy ∧
                srSeven.total_chunks ≠ (extractHeader vdTwelve.headerGet).total_chunks) ∨
              ((extractHeader vdTwelve.headerGet).compression_type.truthy ∧
                srSeven.compression_type ≠
                  (extractHeader vdTwelve.headerGet).compression_type)
           then 1 else 0) ∧
      (¬ (((extractHeader vdTwelve.headerGet).total_size.truthy ∧
            srSeven.total_size_bytes ≠ (extractHeader vdTwelve.headerGet).total_size) ∨
          ((extractHeader vdTwelve.headerGet).total_chunks.truthy ∧
            srSeven.total_chunks ≠ (extractHeader vdTwelve.headerGet).total_chunks) ∨
          ((extractHeader vdTwelve.headerGet).compression_type.truthy ∧
            srSeven.compression_type ≠ (extractHeader vdTwelve.headerGet).compression_type)) →
        (processVersion 5 "ethereum-reth-mainnet-archive-v1/" vdTwelve
          (initAcc [srSeven])).db = (initAcc [srSeven]).db)) :=
  ⟨by decide, rfl, by decide,
   reconcile_existing_update 5 "ethereum-reth-mainnet-archive-v1/" vdTwelve
     (initAcc [srSeven]) srSeven (by decide) rfl (by decide)⟩

/-- C8: once a record exists, the reconciliation of its version directory
leaves `chain`, `client`, `network`, `type`, `snapshot_path`, `snapshot_id`,
`indexed_at`, `is_active`, the externally-owned `external_metadata` blob and
the manifest path columns unchanged, and touches no other record. -/
theorem reconcile_preserves_structural_fields (now : Nat) (protocol_dir : String)
    (vd : VersionDir) (acc : ScanAcc) (sr : SnapshotRec)
    (hn : vd.name ≠ "") (hb : vd.bodyHead = .found)
    (hf : findSnapshot acc.db (pathOf vd) = some sr) :
    ∃ sr',
      findSnapshot (processVersion now protocol_dir vd acc).db (pathOf vd) = some sr' ∧
      sr'.chain = sr.chain ∧ sr'.client = sr.client ∧ sr'.network = sr.network ∧
      sr'.type = sr.type ∧ sr'.snapshot_path = sr.snapshot_path ∧
      sr'.snapshot_id = sr.snapshot_id ∧ sr'.indexed_at = sr.indexed_at ∧
      sr'.is_active = sr.is_active ∧ sr'.external_metadata = sr.external_metadata ∧
      sr'.manifest_body_path = sr.manifest_body_path ∧
      sr'.manifest_header_path = sr.manifest_header_path ∧
      (∀ q, q ≠ pathOf vd →
        findSnapshot (processVersion now protocol_dir vd acc).db q = findSnapshot acc.db q) := by
  have hsp : sr.snapshot_path = pathOf vd := findSnapshot_path hf
  obtain ⟨e1, e2, e3, e4, e5, e6, e7, e8, e9, e10, e11, e12, e13, e14, e15, e16, e17, e18⟩ :=
    applyUpdate_spec now sr (extractHeader vd.headerGet)
  rw [processVersion_found_existing now protocol_dir vd acc sr hn hb hf]
  by_cases hu : (applyUpdate now sr (extractHeader vd.headerGet)).2 = true
  · rw [if_pos hu]
    refine ⟨(applyUpdate now sr (extractHeader vd.headerGet)).1, ?_,
      e7, e8, e9, e10, e11, e12, e15, e16, e17, e13, e14, ?_⟩
    · exact findSnapshot_updateFirst_self hf (by rw [e11, hsp])
    · intro q hq
      exact findSnapshot_updateFirst_ne hq (by rw [e11, hsp])
  · rw [if_neg hu]
    exact ⟨sr, hf, rfl, rfl, rfl, rfl, rfl, rfl, rfl, rfl, rfl, rfl, rfl,
      fun q hq => rfl⟩

/-- C8 witness. -/
theorem reconcile_preserves_structural_fields_witness :
    vdTwelve.name ≠ "" ∧ vdTwelve.bodyHead = .found ∧
    findSnapshot (initAcc [srSeven]).db (pathOf vdTwelve) = some srSeven ∧
    (∃ sr',
      findSnapshot (processVersion 9 "ethereum-reth-mainnet-archive-v1/" vdTwelve
        (initAcc [srSeven])).db (pathOf vdTwelve) = some sr' ∧
      sr'.chain = srSeven.chain ∧ sr'.client = srSeven.client ∧
      sr'.network = srSeven.network ∧ sr'.type = srSeven.type ∧
      sr'.snapshot_path = srSeven.snapshot_path ∧
      sr'.snapshot_id = srSeven.snapshot_id ∧ sr'.indexed_at = srSeven.indexed_at ∧
      sr'.is_active = srSeven.is_active ∧
      sr'.external_metadata = srSeven.external_metadata ∧
      sr'.manifest_body_path = srSeven.manifest_body_path ∧
      sr'.manifest_header_path = srSeven.manifest_header_path ∧
      (∀ q, q ≠ pathOf vdTwelve →
        findSnapshot (processVersion 9 "ethereum-reth-mainnet-archive-v1/" vdTwelve
          (initAcc [srSeven])).db q = findSnapshot (initAcc [srSeven]).db q)) :=
  ⟨by decide, rfl, by decide,
   reconcile_preserves_structural_fields 9 "ethereum-reth-mainnet-archive-v1/" vdTwelve
     (initAcc [srSeven]) srSeven (by decide) rfl (by decide)⟩

/-- C5: a new version directory whose body manifest exists but whose header
manifest fetch or JSON parse fails is still cataloged: exactly one record is
appended, with NULL `total_size_bytes`, `total_chunks`, `compression_type`,
NULL metadata and no header path, the `created` counter is incremented, and
nothing is appended to the run's error list. -/
theorem header_failure_still_catalogs (now : Nat) (protocol_dir : String) (vd : VersionDir)
    (acc : ScanAcc)
    (hn : vd.name ≠ "") (hb : vd.bodyHead = .found)
    (hf : findSnapshot acc.db (pathOf vd) = none)
    (hh : vd.headerGet = .fetched none ∨ vd.headerGet = .fetchErr) :
    (processVersion now protocol_dir vd acc).db =
      acc.db ++ [makeRecord now protocol_dir vd.name (extractHeader vd.headerGet)] ∧
    (makeRecord now protocol_dir vd.name (extractHeader vd.headerGet)).total_size_bytes =
      Json.null ∧
    (makeRecord now protocol_dir vd.name (extractHeader vd.headerGet)).total_chunks =
      Json.null ∧
    (makeRecord now protocol_dir vd.name (extractHeader vd.headerGet)).compression_type =
      Json.null ∧
    (makeRecord now protocol_dir vd.name (extractHeader vd.headerGet)).snapshot_metadata =
      Json.null ∧
    (makeRecord now protocol_dir vd.name (extractHeader vd.headerGet)).manifest_header_path =
      none ∧
    (processVersion now protocol_dir vd acc).new_snapshots = acc.new_snapshots + 1 ∧
    (processVersion now protocol_dir vd acc).errors = acc.errors := by
  have hE : extractHeader vd.headerGet = ⟨Json.null, Json.null, Json.null, Json.null⟩ := by
    rcases hh with h | h <;> rw [h] <;> rfl
  rw [processVersion_found_new now protocol_dir vd acc hn hb hf, hE]
  exact ⟨rfl, rfl, rfl, rfl, rfl, rfl, rfl, rfl⟩

/-- C5 witness: a header manifest whose JSON fails to parse. -/
theorem header_failure_still_catalogs_witness :
    vdBadHeader.name ≠ "" ∧ vdBadHeader.bodyHead = .found ∧
    findSnapshot (initAcc [srSeven]).db (pathOf vdBadHeader) = none ∧
    (vdBadHeader.headerGet = .fetched none ∨ vdBadHeader.headerGet = .fetchErr) ∧
    ((processVersion 4 "ethereum-reth-mainnet-archive-v1/" vdBadHeader
        (initAcc [srSeven])).db =
      (initAcc [srSeven]).db ++
        [makeRecord 4 "ethereum-reth-mainnet-archive-v1/" vdBadHeader.name
          (extractHeader vdBadHeader.headerGet)] ∧
    (makeRecord 4 "ethereum-reth-mainnet-archive-v1/" vdBadHeader.name
      (extractHeader vdBadHeader.headerGet)).total_size_bytes = Json.null ∧
    (makeRecord 4 "ethereum-reth-mainnet-archive-v1/" vdBadHeader.name
      (extractHeader vdBadHeader.headerGet)).total_chunks = Json.null ∧
    (makeRecord 4 "ethereum-reth-mainnet-archive-v1/" vdBadHeader.name
      (extractHeader vdBadHeader.headerGet)).compression_type = Json.null ∧
    (makeRecord 4 "ethereum-reth-mainnet-archive-v1/" vdBadHeader.name
      (extractHeader vdBadHeader.headerGet)).snapshot_metadata = Json.null ∧
    (makeRecord 4 "ethereum-reth-mainnet-archive-v1/" vdBadHeader.name
      (extractHeader vdBadHeader.headerGet)).manifest_header_path = none ∧
    (processVersion 4 "ethereum-reth-mainnet-archive-v1/" vdBadHeader
      (initAcc [srSeven])).new_snapshots = (initAcc [srSeven]).new_snapshots + 1 ∧
    (processVersion 4 "ethereum-reth-mainnet-archive-v1/" vdBadHeader
      (initAcc [srSeven])).errors = (initAcc [srSeven]).errors) :=
  ⟨by decide, rfl, by decide, Or.inl rfl,
   header_failure_still_catalogs 4 "ethereum-reth-mainnet-archive-v1/" vdBadHeader
     (initAcc [srSeven]) (by decide) rfl (by decide) (Or.inl rfl)⟩

/-- C10: when the header manifest parses to a JSON object, a missing
`total_size` key (respectively a missing `chunks` key) makes the extracted
metric default to 0, not NULL, so the newly created record stores
`total_size_bytes = 0` (respectively `total_chunks = 0`). -/
theorem missing_keys_default_zero (now : Nat) (protocol_dir : String) (vd : VersionDir)
    (acc : ScanAcc) (fields : JsonObj)
    (hn : vd.name ≠ "") (hb : vd.bodyHead = .found)
    (hf : findSnapshot acc.db (pathOf vd) = none)
    (hh : vd.headerGet = .fetched (some (Json.obj fields))) :
    (processVersion now protocol_dir vd acc).db =
      acc.db ++ [makeRecord now protocol_dir vd.name (extractHeader vd.headerGet)] ∧
    (fields.hasKey "total_size" = false →
      (makeRecord now protocol_dir vd.name (extractHeader vd.headerGet)).total_size_bytes =
        Json.num 0) ∧
    (fields.hasKey "chunks" = false →
      (makeRecord now protocol_dir vd.name (extractHeader vd.headerGet)).total_chunks =
        Json.num 0) := by
  refine ⟨?_, ?_, ?_⟩
  · rw [processVersion_found_new now protocol_dir vd acc hn hb hf]
  · intro hk
    rw [hh]
    show (extractFromJson (Json.obj fields)).total_size = Json.num 0
    show fields.getD "total_size" (Json.num 0) = Json.num 0
    exact jsonObj_getD_of_no_key fields "total_size" (Json.num 0) hk
  · intro hk
    rw [hh]
    show (extractFromJson (Json.obj fields)).total_chunks = Json.num 0
    show fields.getD "chunks" (Json.num 0) = Json.num 0
    exact jsonObj_getD_of_no_key fields "chunks" (Json.num 0) hk

/-- C10 witness: the empty JSON object header. -/
theorem missing_keys_default_zero_witness :
    vdEmptyHeader.name ≠ "" ∧ vdEmptyHeader.bodyHead = .found ∧
    findSnapshot (initAcc []).db (pathOf vdEmptyHeader) = none ∧
    vdEmptyHeader.headerGet = .fetched (some (Json.obj .nil)) ∧
    ((processVersion 2 "ethereum-reth-mainnet-archive-v1/" vdEmptyHeader (initAcc [])).db =
      (initAcc []).db ++
        [makeRecord 2 "ethereum-reth-mainnet-archive-v1/" vdEmptyHeader.name
          (extractHeader vdEmptyHeader.headerGet)] ∧
    (JsonObj.nil.hasKey "total_size" = false →
      (makeRecord 2 "ethereum-reth-mainnet-archive-v1/" vdEmptyHeader.name
        (extractHeader vdEmptyHeader.headerGet)).total_size_bytes = Json.num 0) ∧
    (JsonObj.nil.hasKey "chunks" = false →
      (makeRecord 2 "ethereum-reth-mainnet-archive-v1/" vdEmptyHeader.name
        (extractHeader vdEmptyHeader.headerGet)).total_chunks = Json.num 0)) :=
  ⟨by decide, rfl, rfl, rfl,
   missing_keys_default_zero 2 "ethereum-reth-mainnet-archive-v1/" vdEmptyHeader
     (initAcc []) .nil (by decide) rfl rfl rfl⟩

/-- C9: the manual scan trigger never surfaces per-item failures as a raised
error: whenever no exception escapes outside `_scan_all_snapshots` the result
is the completed shape carrying the run's (possibly empty) error list, and
only a fatal whole-pass failure yields the distinct error-status result. -/
theorem scan_now_errors_list (now : Nat) (store : Store) (db : List SnapshotRec) :
    (scan_now now store db none).ret =
      .completed "manual" (scanAllSnapshots now store db).snapshots_found
        (scanAllSnapshots now store db).new_snapshots
        (scanAllSnapshots now store db).updated_snapshots
        (scanAllSnapshots now store db).prefixes_scanned.length
        (scanAllSnapshots now store db).errors ∧
    (∀ m, (scan_now now store db (some m)).ret = .fatalError m) :=
  ⟨rfl, fun _ => rfl⟩

/-- C6: a traversal-level listing failure ends the pass early with a single
fatal entry appended to the error list, and the ScanRun row is still closed:
`completed_at` is set, `errors` is the non-empty list containing the fatal
entry, and the partial counters accumulated before the failure are written. -/
theorem fatal_traversal_closes_run (now : Nat) (store : Store) (db : List SnapshotRec)
    (scan_type : String) (e : String) (h : store.traversalError = some e) :
    (runSingleScan now store db scan_type none).history.completed_at = some now ∧
    (runSingleScan now store db scan_type none).history.errors =
      some (scanAllSnapshots now store db).errors ∧
    ("Error scanning bucket: " ++ e) ∈ (scanAllSnapshots now store db).errors ∧
    (scanAllSnapshots now store db).errors ≠ [] ∧
    (runSingleScan now store db scan_type none).history.snapshots_found =
      (scanAllSnapshots now store db).snapshots_found ∧
    (runSingleScan now store db scan_type none).history.new_snapshots =
      (scanAllSnapshots now store db).new_snapshots ∧
    (runSingleScan now store db scan_type none).history.updated_snapshots =
      (scanAllSnapshots now store db).updated_snapshots := by
  have hE : (scanAllSnapshots now store db).errors =
      (scanProtocols now store.protocols (initAcc db)).errors ++
        ["Error scanning bucket: " ++ e] := by
    unfold scanAllSnapshots
    rw [h]
  have hmem : ("Error scanning bucket: " ++ e) ∈ (scanAllSnapshots now store db).errors := by
    rw [hE]
    simp
  have hne : (scanAllSnapshots now store db).errors ≠ [] := by
    rw [hE]
    simp
  refine ⟨rfl, ?_, hmem, hne, rfl, rfl, rfl⟩
  show (if (scanAllSnapshots now store db).errors = [] then none
    else some (scanAllSnapshots now store db).errors) =
    some (scanAllSnapshots now store db).errors
  rw [if_neg hne]

/-- C6 witness. -/
theorem fatal_traversal_closes_run_witness :
    storeBroken.traversalError = some "connection reset" ∧
    ((runSingleScan 7 storeBroken [] "scheduled" none).history.completed_at = some 7 ∧
    (runSingleScan 7 storeBroken [] "scheduled" none).history.errors =
      some (scanAllSnapshots 7 storeBroken []).errors ∧
    ("Error scanning bucket: " ++ "connection reset") ∈
      (scanAllSnapshots 7 storeBroken []).errors ∧
    (scanAllSnapshots 7 storeBroken []).errors ≠ [] ∧
    (runSingleScan 7 storeBroken [] "scheduled" none).history.snapshots_found =
      (scanAllSnapshots 7 storeBroken []).snapshots_found ∧
    (runSingleScan 7 storeBroken [] "scheduled" none).history.new_snapshots =
      (scanAllSnapshots 7 storeBroken []).new_snapshots ∧
    (runSingleScan 7 storeBroken [] "scheduled" none).history.updated_snapshots =
      (scanAllSnapshots 7 storeBroken []).updated_snapshots) :=
  ⟨rfl, fatal_traversal_closes_run 7 storeBroken [] "scheduled" "connection reset" rfl⟩

theorem processVersion_skip (now : Nat) (p : String) (vd : VersionDir) (acc : ScanAcc)
    (h : vd.name = "" ∨ vd.bodyHead = .missing) :
    processVersion now p vd acc = acc := by
  unfold processVersion
  by_cases hn : vd.name = ""
  · rw [if_pos hn]
  · rcases h with h | h
    · exact absurd h hn
    · rw [if_neg hn, h]

theorem ifUpdate_synced {a b : Json} (ht : b.truthy = true) :
    (if b.truthy ∧ a ≠ b then b else a) = b := by
  by_cases hab : a = b
  · rw [if_neg (fun hc => hc.2 hab)]
    exact hab
  · rw [if_pos ⟨ht, hab⟩]

theorem vdSettled_of_findEq {db' db : List SnapshotRec} {vd : VersionDir}
    (h : findSnapshot db' (pathOf vd) = findSnapshot db (pathOf vd))
    (hs : vdSettled db vd) : vdSettled db' vd := by
  intro hn hb
  obtain ⟨sr, hf, h1, h2, h3⟩ := hs hn hb
  exact ⟨sr, h.trans hf, h1, h2, h3⟩

theorem processVersion_db_stable (now : Nat) (p : String) (vd : VersionDir) (acc : ScanAcc)
    (q : String) (hq : q ≠ pathOf vd) :
    findSnapshot (processVersion now p vd acc).db q = findSnapshot acc.db q := by
  by_cases hn : vd.name = ""
  · rw [processVersion_skip now p vd acc (Or.inl hn)]
  · cases hb : vd.bodyHead with
    | missing => rw [processVersion_skip now p vd acc (Or.inr hb)]
    | headErr msg => rw [processVersion_headErr now p vd acc msg hn hb]
    | found =>
        cases hf : findSnapshot acc.db (pathOf vd) with
        | none =>
            rw [processVersion_found_new now p vd acc hn hb hf]
            exact findSnapshot_append_ne hq rfl
        | some sr =>
            have hsp : sr.snapshot_path = pathOf vd := findSnapshot_path hf
            obtain ⟨e1, e2, e3, e4, e5, e6, e7, e8, e9, e10, e11, e12, e13, e14, e15, e16,
              e17, e18⟩ := applyUpdate_spec now sr (extractHeader vd.headerGet)
            rw [processVersion_found_existing now p vd acc sr hn hb hf]
            by_cases hu : (applyUpdate now sr (extractHeader vd.headerGet)).2 = true
            · rw [if_pos hu]
              exact findSnapshot_updateFirst_ne hq (by rw [e11, hsp])
            · rw [if_neg hu]

theorem processVersion_settles (now : Nat) (p : String) (vd : VersionDir) (acc : ScanAcc) :
    vdSettled (processVersion now p vd acc).db vd := by
  intro hn hb
  cases hf : findSnapshot acc.db (pathOf vd) with
  | none =>
      rw [processVersion_found_new now p vd acc hn hb hf]
      exact ⟨makeRecord now p vd.name (extractHeader vd.headerGet),
        findSnapshot_append_self hf rfl, fun _ => rfl, fun _ => rfl, fun _ => rfl⟩
  | some sr =>
      have hsp : sr.snapshot_path = pathOf vd := findSnapshot_path hf
      obtain ⟨e1, e2, e3, e4, e5, e6, e7, e8, e9, e10, e11, e12, e13, e14, e15, e16,
        e17, e18⟩ := applyUpdate_spec now sr (extractHeader vd.headerGet)
      rw [processVersion_found_existing now p vd acc sr hn hb hf]
      by_cases hu : (applyUpdate now sr (extractHeader vd.headerGet)).2 = true
      · rw [if_pos hu]
        refine ⟨(applyUpdate now sr (extractHeader vd.headerGet)).1,
          findSnapshot_updateFirst_self hf (by rw [e11, hsp]), ?_, ?_, ?_⟩
        · intro ht
          rw [e1]
          exact ifUpdate_synced ht
        · intro ht
          rw [e2]
          exact ifUpdate_synced ht
        · intro ht
          rw [e3]
          exact ifUpdate_synced ht
      · have hnd := fun hdd => hu (e4.mpr hdd)
        rw [if_neg hu]
        refine ⟨sr, hf, ?_, ?_, ?_⟩
        · intro ht
          by_contra hne
          exact hnd (Or.inl ⟨ht, hne⟩)
        · intro ht
          by_contra hne
          exact hnd (Or.inr (Or.inl ⟨ht, hne⟩))
        · intro ht
          by_contra hne
          exact hnd (Or.inr (Or.inr ⟨ht, hne⟩))

theorem processVersion_settled_noop (now : Nat) (p : String) (vd : VersionDir) (acc : ScanAcc)
    (hs : vdSettled acc.db vd) :
    (processVersion now p vd acc).db = acc.db ∧
    (processVersion now p vd acc).new_snapshots = acc.new_snapshots ∧
    (processVersion now p vd acc).updated_snapshots = acc.updated_snapshots := by
  by_cases hn : vd.name = ""
  · rw [processVersion_skip now p vd acc (Or.inl hn)]
    exact ⟨rfl, rfl, rfl⟩
  · cases hb : vd.bodyHead with
    | missing =>
        rw [processVersion_skip now p vd acc (Or.inr hb)]
        exact ⟨rfl, rfl, rfl⟩
    | headErr msg =>
        rw [processVersion_headErr now p vd acc msg hn hb]
        exact ⟨rfl, rfl, rfl⟩
    | found =>
        obtain ⟨sr, hf, h1, h2, h3⟩ := hs hn hb
        obtain ⟨e1, e2, e3, e4, e5, e6, e7, e8, e9, e10, e11, e12, e13, e14, e15, e16,
          e17, e18⟩ := applyUpdate_spec now sr (extractHeader vd.headerGet)
        rw [processVersion_found_existing now p vd acc sr hn hb hf]
        have hu : ¬ (applyUpdate now sr (extractHeader vd.headerGet)).2 = true := by
          intro hu
          rcases e4.mp hu with ⟨ht, hne⟩ | ⟨ht, hne⟩ | ⟨ht, hne⟩
          · exact hne (h1 ht)
          · exact hne (h2 ht)
          · exact hne (h3 ht)
        rw [if_neg hu]
        exact ⟨rfl, rfl, rfl⟩

theorem scanVersions_cons (now : Nat) (p : String) (x : VersionDir) (rest : List VersionDir)
    (acc : ScanAcc) :
    scanVersions now p (x :: rest) acc = scanVersions now p rest (processVersion now p x acc) :=
  rfl

theorem scanVersions_db_stable (now : Nat) (p : String) (q : String) :
    ∀ (vds : List VersionDir) (acc : ScanAcc), (∀ vd ∈ vds, q ≠ pathOf vd) →
      findSnapshot (scanVersions now p vds acc).db q = findSnapshot acc.db q
  | [], _, _ => rfl
  | x :: rest, acc, h => by
      rw [scanVersions_cons, scanVersions_db_stable now p q rest (processVersion now p x acc)
        (fun vd hv => h vd (List.mem_cons_of_mem x hv))]
      exact processVersion_db_stable now p x acc q (h x (List.mem_cons_self x rest))

theorem scanVersions_settles (now : Nat) (p : String) :
    ∀ (vds : List VersionDir) (acc : ScanAcc), (vds.map pathOf).Nodup →
      ∀ vd ∈ vds, vdSettled (scanVersions now p vds acc).db vd
  | [], _, _, vd, hv => absurd hv (List.not_mem_nil vd)
  | x :: rest, acc, hnd, vd, hv => by
      have hnd' : (pathOf x :: rest.map pathOf).Nodup := by simpa using hnd
      obtain ⟨hnotmem, hnd2⟩ := List.nodup_cons.mp hnd'
      rw [scanVersions_cons]
      rcases List.mem_cons.mp hv with hvx | hvr
      · subst hvx
        refine vdSettled_of_findEq ?_ (processVersion_settles now p vd acc)
        exact scanVersions_db_stable now p (pathOf vd) rest (processVersion now p vd acc)
          (fun vd' hv' heq => hnotmem (by rw [heq]; exact List.mem_map_of_mem pathOf hv'))
      · exact scanVersions_settles now p rest (processVersion now p x acc) hnd2 vd hvr

theorem scanVersions_settled_noop (now : Nat) (p : String) :
    ∀ (vds : List VersionDir) (acc : ScanAcc), (∀ vd ∈ vds, vdSettled acc.db vd) →
      (scanVersions now p vds acc).db = acc.db ∧
      (scanVersions now p vds acc).new_snapshots = acc.new_snapshots ∧
      (scanVersions now p vds acc).updated_snapshots = acc.updated_snapshots
  | [], _, _ => ⟨rfl, rfl, rfl⟩
  | x :: rest, acc, hs => by
      obtain ⟨hdb, hnew, hupd⟩ :=
        processVersion_settled_noop now p x acc (hs x (List.mem_cons_self x rest))
      have hs' : ∀ vd ∈ rest, vdSettled (processVersion now p x acc).db vd := by
        intro vd hv
        rw [hdb]
        exact hs vd (List.mem_cons_of_mem x hv)
      obtain ⟨i1, i2, i3⟩ :=
        scanVersions_settled_noop now p rest (processVersion now p x acc) hs'
      rw [scanVersions_cons]
      exact ⟨i1.trans hdb, i2.trans hnew, i3.trans hupd⟩

theorem scanProtocol_eq_of_empty (now : Nat) (pd : ProtocolDir) (acc : ScanAcc)
    (hn : pd.name = "") : scanProtocol now pd acc = acc := by
  unfold scanProtocol
  rw [if_pos hn]

theorem scanProtocol_eq_of_ne (now : Nat) (pd : ProtocolDir) (acc : ScanAcc)
    (hn : pd.name ≠ "") :
    scanProtocol now pd acc = scanVersions now pd.name pd.versions
      { acc with prefixes_scanned := acc.prefixes_scanned ++ [rstripSlash pd.name] } := by
  unfold scanProtocol
  rw [if_neg hn]

theorem protocolItems_of_empty {pd : ProtocolDir} (hn : pd.name = "") :
    protocolItems pd = [] := by
  unfold protocolItems
  rw [if_pos hn]

theorem protocolItems_of_ne {pd : ProtocolDir} (hn : pd.name ≠ "") :
    protocolItems pd = pd.versions := by
  unfold protocolItems
  rw [if_neg hn]

theorem scanProtocol_db_stable (now : Nat) (pd : ProtocolDir) (acc : ScanAcc) (q : String)
    (h : ∀ vd ∈ protocolItems pd, q ≠ pathOf vd) :
    findSnapshot (scanProtocol now pd acc).db q = findSnapshot acc.db q := by
  by_cases hn : pd.name = ""
  · rw [scanProtocol_eq_of_empty now pd acc hn]
  · rw [scanProtocol_eq_of_ne now pd acc hn]
    exact scanVersions_db_stable now pd.name q pd.versions _
      (fun vd hv => h vd (by rw [protocolItems_of_ne hn]; exact hv))

theorem scanProtocol_settles (now : Nat) (pd : ProtocolDir) (acc : ScanAcc)
    (hnd : ((protocolItems pd).map pathOf).Nodup) :
    ∀ vd ∈ protocolItems pd, vdSettled (scanProtocol now pd acc).db vd := by
  by_cases hn : pd.name = ""
  · intro vd hv
    rw [protocolItems_of_empty hn] at hv
    exact absurd hv (List.not_mem_nil vd)
  · intro vd hv
    rw [protocolItems_of_ne hn] at hv
    rw [protocolItems_of_ne hn] at hnd
    rw [scanProtocol_eq_of_ne now pd acc hn]
    exact scanVersions_settles now pd.name pd.versions _ hnd vd hv

theorem scanProtocol_settled_noop (now : Nat) (pd : ProtocolDir) (acc : ScanAcc)
    (hs : ∀ vd ∈ protocolItems pd, vdSettled acc.db vd) :
    (scanProtocol now pd acc).db = acc.db ∧
    (scanProtocol now pd acc).new_snapshots = acc.new_snapshots ∧
    (scanProtocol now pd acc).updated_snapshots = acc.updated_snapshots := by
  by_cases hn : pd.name = ""
  · rw [scanProtocol_eq_of_empty now pd acc hn]
    exact ⟨rfl, rfl, rfl⟩
  · rw [scanProtocol_eq_of_ne now pd acc hn]
    exact scanVersions_settled_noop now pd.name pd.versions _
      (fun vd hv => hs vd (by rw [protocolItems_of_ne hn]; exact hv))

theorem scanProtocols_cons (now : Nat) (pd : ProtocolDir) (rest : List ProtocolDir)
    (acc : ScanAcc) :
    scanProtocols now (pd :: rest) acc = scanProtocols now rest (scanProtocol now pd acc) :=
  rfl

theorem scanProtocols_db_stable (now : Nat) (q : String) :
    ∀ (pds : List ProtocolDir) (acc : ScanAcc), q ∉ storePaths pds →
      findSnapshot (scanProtocols now pds acc).db q = findSnapshot acc.db q
  | [], _, _ => rfl
  | pd :: rest, acc, h => by
      have h1 : ∀ vd ∈ protocolItems pd, q ≠ pathOf vd := by
        intro vd hv heq
        refine h ?_
        show q ∈ (protocolItems pd).map pathOf ++ storePaths rest
        exact List.mem_append_left _ (by rw [heq]; exact List.mem_map_of_mem pathOf hv)
      have h2 : q ∉ storePaths rest := by
        intro hm
        refine h ?_
        show q ∈ (protocolItems pd).map pathOf ++ storePaths rest
        exact List.mem_append_right _ hm
      rw [scanProtocols_cons,
        scanProtocols_db_stable now q rest (scanProtocol now pd acc) h2]
      exact scanProtocol_db_stable now pd acc q h1

theorem scanProtocols_settles (now : Nat) :
    ∀ (pds : List ProtocolDir) (acc : ScanAcc), (storePaths pds).Nodup →
      ∀ pd ∈ pds, ∀ vd ∈ protocolItems pd, vdSettled (scanProtocols now pds acc).db vd
  | [], _, _, pd, hpd, _, _ => absurd hpd (List.not_mem_nil pd)
  | pd0 :: rest, acc, hnd, pd, hpd, vd, hv => by
      have hnd' : (((protocolItems pd0).map pathOf) ++ storePaths rest).Nodup := hnd
      obtain ⟨nd1, nd2, ndisj⟩ := List.nodup_append.mp hnd'
      rw [scanProtocols_cons]
      rcases List.mem_cons.mp hpd with hpd0 | hpdr
      · subst hpd0
        refine vdSettled_of_findEq ?_ (scanProtocol_settles now pd acc nd1 vd hv)
        exact scanProtocols_db_stable now (pathOf vd) rest (scanProtocol now pd acc)
          (ndisj (List.mem_map_of_mem pathOf hv))
      · exact scanProtocols_settles now rest (scanProtocol now pd0 acc) nd2 pd hpdr vd hv

theorem scanProtocols_settled_noop (now : Nat) :
    ∀ (pds : List ProtocolDir) (acc : ScanAcc),
      (∀ pd ∈ pds, ∀ vd ∈ protocolItems pd, vdSettled acc.db vd) →
      (scanProtocols now pds acc).db = acc.db ∧
      (scanProtocols now pds acc).new_snapshots = acc.new_snapshots ∧
      (scanProtocols now pds acc).updated_snapshots = acc.updated_snapshots
  | [], _, _ => ⟨rfl, rfl, rfl⟩
  | pd0 :: rest, acc, hs => by
      obtain ⟨hdb, hnew, hupd⟩ :=
        scanProtocol_settled_noop now pd0 acc (hs pd0 (List.mem_cons_self pd0 rest))
      have hs' : ∀ pd ∈ rest, ∀ vd ∈ protocolItems pd,
          vdSettled (scanProtocol now pd0 acc).db vd := by
        intro pd hpd vd hv
        rw [hdb]
        exact hs pd (List.mem_cons_of_mem pd0 hpd) vd hv
      obtain ⟨i1, i2, i3⟩ :=
        scanProtocols_settled_noop now rest (scanProtocol now pd0 acc) hs'
      rw [scanProtocols_cons]
      exact ⟨i1.trans hdb, i2.trans hnew, i3.trans hupd⟩

theorem scanAllSnapshots_components (now : Nat) (store : Store) (db : List SnapshotRec) :
    (scanAllSnapshots now store db).db =
      (scanProtocols now store.protocols (initAcc db)).db ∧
    (scanAllSnapshots now store db).new_snapshots =
      (scanProtocols now store.protocols (initAcc db)).new_snapshots ∧
    (scanAllSnapshots now store db).updated_snapshots =
      (scanProtocols now store.protocols (initAcc db)).updated_snapshots := by
  unfold scanAllSnapshots
  cases h : store.traversalError with
  | none => exact ⟨rfl, rfl, rfl⟩
  | some e => exact ⟨rfl, rfl, rfl⟩

/-- C3: running the reconciliation pass twice against an unchanged object
store (whose listed version prefixes are pairwise distinct, as prefixes of a
real store are) makes the second pass a no-op: `created = 0` and
`updated = 0`. -/
theorem second_pass_no_writes (store : Store) (db : List SnapshotRec) (n1 n2 : Nat)
    (hnd : (storePaths store.protocols).Nodup) :
    (scanAllSnapshots n2 store (scanAllSnapshots n1 store db).db).new_snapshots = 0 ∧
    (scanAllSnapshots n2 store (scanAllSnapshots n1 store db).db).updated_snapshots = 0 := by
  obtain ⟨c1db, _, _⟩ := scanAllSnapshots_components n1 store db
  obtain ⟨_, c2new, c2upd⟩ :=
    scanAllSnapshots_components n2 store (scanAllSnapshots n1 store db).db
  have hsettle : ∀ pd ∈ store.protocols, ∀ vd ∈ protocolItems pd,
      vdSettled (scanAllSnapshots n1 store db).db vd := by
    intro pd hpd vd hv
    rw [c1db]
    exact scanProtocols_settles n1 store.protocols (initAcc db) hnd pd hpd vd hv
  obtain ⟨_, h2, h3⟩ := scanProtocols_settled_noop n2 store.protocols
    (initAcc (scanAllSnapshots n1 store db).db) hsettle
  exact ⟨c2new.trans h2, c2upd.trans h3⟩

/-- C3 witness: a one-protocol, one-version store scanned twice from an empty
catalog. -/
theorem second_pass_no_writes_witness :
    (storePaths storeOne.protocols).Nodup ∧
    ((scanAllSnapshots 2 storeOne (scanAllSnapshots 1 storeOne []).db).new_snapshots = 0 ∧
     (scanAllSnapshots 2 storeOne (scanAllSnapshots 1 storeOne []).db).updated_snapshots = 0) :=
  ⟨by decide, second_pass_no_writes storeOne [] 1 2 (by decide)⟩
